import Mathlib

/-!
# Verification of the RSVP speed-reader core

Shallow embedding of the speed-reader engine of the `lazyharry` repository:
the tokenizer, ORP (Optimal Recognition Point) utilities and time formatting
from `utils/speed-reader-utils`, and the playback state machine from the
`useSpeedReader` hook.  Words and raw text are modelled as `List Char`
(JavaScript strings act as sequences of code units here); JavaScript numbers
holding indices and rates are modelled as `Int`, and the fractional
remaining-time computation as `ℚ` (exact at every input the claims touch).
-/

namespace SpeedReader

/-! ## ORP utilities (`getORPIndex`, `splitWordAtORP`) -/

/-- `getORPIndex` from the source: a step function of the word's length.
`if (len <= 1) return 0; if (len <= 5) return 1; if (len <= 9) return 2;
if (len <= 13) return 3; return 4;` -/
def getORPIndex (word : List Char) : Nat :=
  let len := word.length
  if len ≤ 1 then 0
  else if len ≤ 5 then 1
  else if len ≤ 9 then 2
  else if len ≤ 13 then 3
  else 4

/-- `splitWordAtORP` from the source: `before = word.slice(0, orpIndex)`,
`orp = word[orpIndex] || ""` (a one-character string, or empty past the end),
`after = word.slice(orpIndex + 1)`. -/
def splitWordAtORP (word : List Char) : List Char × List Char × List Char :=
  let orpIndex := getORPIndex word
  (word.take orpIndex, (word.drop orpIndex).take 1, word.drop (orpIndex + 1))

/-! ## Time formatting (`formatTime`, `calculateRemainingTime`) -/

/-- Decimal rendering of a natural number, as JavaScript's number-to-string
conversion produces for non-negative integers. -/
def natToString (n : Nat) : String := toString n

/-- `formatTime` from the source, over exact rationals:
`if (!Number.isFinite(seconds) || seconds < 0) return "0:00";
mins = Math.floor(seconds / 60); secs = Math.floor(seconds % 60);
return mins + ":" + secs.toString().padStart(2, "0")`.
For `seconds ≥ 0`, JavaScript's `seconds % 60` is `seconds - 60 * ⌊seconds / 60⌋`. -/
def formatTime (seconds : ℚ) : String :=
  if seconds < 0 then "0:00"
  else
    let mins : Nat := (Int.floor (seconds / 60)).toNat
    let secs : Nat := (Int.floor (seconds - 60 * (Int.floor (seconds / 60) : ℚ))).toNat
    let secsStr := natToString secs
    let padded := if secsStr.length < 2 then "0" ++ secsStr else secsStr
    natToString mins ++ ":" ++ padded

/-- `calculateRemainingTime` from the source:
`if (wpm <= 0) return 0; return (wordsLeft / wpm) * 60;`. -/
def calculateRemainingTime (wordsLeft : ℚ) (wpm : ℚ) : ℚ :=
  if wpm ≤ 0 then 0 else wordsLeft / wpm * 60

/-! ## Tokenizer (`tokenizeText`) -/

/-- The character class matched by JavaScript's `\s` (and trimmed by
`String.prototype.trim`): ASCII whitespace, NBSP, the Unicode space
separators, line/paragraph separators, and the BOM. -/
def isJsWhitespace (c : Char) : Bool :=
  c.toNat = 0x20 || c.toNat = 0x09 || c.toNat = 0x0a || c.toNat = 0x0b ||
  c.toNat = 0x0c || c.toNat = 0x0d || c.toNat = 0xa0 || c.toNat = 0x1680 ||
  (0x2000 ≤ c.toNat && c.toNat ≤ 0x200a) || c.toNat = 0x2028 ||
  c.toNat = 0x2029 || c.toNat = 0x202f || c.toNat = 0x205f ||
  c.toNat = 0x3000 || c.toNat = 0xfeff

/-- `text.trim()`: drop leading and trailing whitespace. -/
def trimChars (l : List Char) : List Char :=
  ((l.dropWhile isJsWhitespace).reverse.dropWhile isJsWhitespace).reverse

/-- Worker for `.replace(/\s+/g, " ")`: the flag records whether the previous
character was part of a whitespace run already replaced by a space. -/
def collapseWsAux : Bool → List Char → List Char
  | _, [] => []
  | prevWs, c :: rest =>
    if isJsWhitespace c then
      if prevWs then collapseWsAux true rest
      else ' ' :: collapseWsAux true rest
    else c :: collapseWsAux false rest

/-- `.replace(/\s+/g, " ")`: every maximal run of whitespace becomes one space. -/
def collapseWs (l : List Char) : List Char := collapseWsAux false l

/-- `.split(" ")`: the list of fields between space characters (empty fields
included, as in JavaScript). -/
def splitOnSpace : List Char → List (List Char)
  | [] => [[]]
  | c :: rest =>
    if c = ' ' then [] :: splitOnSpace rest
    else
      match splitOnSpace rest with
      | [] => [[c]]
      | f :: fs => (c :: f) :: fs

/-- `tokenizeText` from the source:
`if (!text) return []; return text.trim().replace(/\s+/g, " ").split(" ")
.filter((word) => word.length > 0)`. -/
def tokenizeText (text : List Char) : List (List Char) :=
  if text.isEmpty then []
  else ((splitOnSpace (collapseWs (trimChars text))).filter (fun w => w.length > 0))

/-! ## Playback state machine (`useSpeedReader`) -/

/-- `SpeedReaderState` from the source. `currentIndex` and `wpm` are
JavaScript numbers, always integral along the hook's code paths, modelled
as `Int` (notably `currentIndex` is not assumed non-negative a priori). -/
structure State where
  words : List (List Char)
  currentIndex : Int
  isPlaying : Bool
  wpm : Int
deriving DecidableEq, Repr

def DEFAULT_WPM : Int := 350
def MIN_WPM : Int := 50
def MAX_WPM : Int := 1000
def WPM_STEP : Int := 50
def SKIP_WORDS : Int := 10

/-- The hook's `useState` initial value: no words, index 0, paused, 350 wpm. -/
def initState : State := ⟨[], 0, false, DEFAULT_WPM⟩

/-- Outcome reported by `loadFromClipboard` via toasts: the two failure
toasts ("Clipboard Empty", "No Words Found") and the success toast. -/
inductive LoadOutcome where
  | clipboardEmpty
  | noWords
  | success
deriving DecidableEq, Repr

/-- The state update and reported outcome of `loadFromClipboard` when the
clipboard read yields `text`:
`if (!text || text.trim().length === 0)` fail with "Clipboard Empty";
`words = tokenizeText(text); if (words.length === 0)` fail with
"No Words Found"; otherwise set `{words, currentIndex: 0, isPlaying: false}`. -/
def loadFromClipboard (text : List Char) (s : State) : State × LoadOutcome :=
  if text = [] ∨ (trimChars text).length = 0 then
    (s, .clipboardEmpty)
  else
    let words := tokenizeText text
    if words.length = 0 then
      (s, .noWords)
    else
      ({ s with words := words, currentIndex := 0, isPlaying := false }, .success)

/-- `togglePlay` from the source:
`if (prev.currentIndex >= prev.words.length - 1 && !prev.isPlaying)`
restart from 0 and play, else flip `isPlaying`. -/
def togglePlay (s : State) : State :=
  if s.currentIndex ≥ (s.words.length : Int) - 1 ∧ s.isPlaying = false then
    { s with currentIndex := 0, isPlaying := true }
  else
    { s with isPlaying := !s.isPlaying }

/-- `nextWord` from the source (the timer callback):
`if (prev.currentIndex >= prev.words.length - 1)` stop, else increment. -/
def nextWord (s : State) : State :=
  if s.currentIndex ≥ (s.words.length : Int) - 1 then
    { s with isPlaying := false }
  else
    { s with currentIndex := s.currentIndex + 1 }

/-- `rewind` from the source: `Math.max(0, prev.currentIndex - SKIP_WORDS)`. -/
def rewind (s : State) : State :=
  { s with currentIndex := max 0 (s.currentIndex - SKIP_WORDS) }

/-- `forward` from the source:
`Math.min(prev.words.length - 1, prev.currentIndex + SKIP_WORDS)`. -/
def forward (s : State) : State :=
  { s with currentIndex := min ((s.words.length : Int) - 1) (s.currentIndex + SKIP_WORDS) }

/-- `speedUp` from the source: `Math.min(MAX_WPM, prev.wpm + WPM_STEP)`. -/
def speedUp (s : State) : State :=
  { s with wpm := min MAX_WPM (s.wpm + WPM_STEP) }

/-- `slowDown` from the source: `Math.max(MIN_WPM, prev.wpm - WPM_STEP)`. -/
def slowDown (s : State) : State :=
  { s with wpm := max MIN_WPM (s.wpm - WPM_STEP) }

/-- The transition operations the hook exposes (plus the timer's `nextWord`,
named `advance` as in the spec; `rewind`/`forward` are the spec's
`seek(∓10)`, `speedUp`/`slowDown` the spec's pace changes). `load` carries
the clipboard text the acquisition returned. -/
inductive Op where
  | load (text : List Char)
  | togglePlay
  | advance
  | rewind
  | forward
  | speedUp
  | slowDown
deriving DecidableEq, Repr

/-- One transition of the state machine. -/
def step (op : Op) (s : State) : State :=
  match op with
  | .load text => (loadFromClipboard text s).1
  | .togglePlay => togglePlay s
  | .advance => nextWord s
  | .rewind => rewind s
  | .forward => forward s
  | .speedUp => speedUp s
  | .slowDown => slowDown s

/-- Run a sequence of operations from a state. -/
def run (s : State) (ops : List Op) : State :=
  ops.foldl (fun s op => step op s) s

/-- A sequence is guarded when `togglePlay` is only ever applied in a state
whose token list is non-empty — the validity precondition the spec attaches
to `togglePlay`. -/
def togglesGuarded : State → List Op → Bool
  | _, [] => true
  | s, op :: rest =>
    (op != Op.togglePlay || !s.words.isEmpty) && togglesGuarded (step op s) rest

/-- The invariant of claim C1: playback is never running with no words. -/
def runningInv (s : State) : Prop := s.words = [] → s.isPlaying = false

/-- The cursor bounds that actually hold in every reachable state: the cursor
is at least `-1` and below `max 1 (words.length)`, and it is non-negative
whenever the word list is non-empty. -/
def cursorInv (s : State) : Prop :=
  -1 ≤ s.currentIndex ∧ s.currentIndex < max 1 (s.words.length : Int) ∧
  (s.words ≠ [] → 0 ≤ s.currentIndex)

/-- Modelled from the spec's words for the refinement comparison:
`setPace(newRate)` "clamps to the supported rate interval (50–1000)". -/
def setPaceSpec (newRate : Int) : Int := max MIN_WPM (min MAX_WPM newRate)

/-- The pace invariant: within `[MIN_WPM, MAX_WPM]` and a multiple of 50. -/
def wpmInv (s : State) : Prop :=
  MIN_WPM ≤ s.wpm ∧ s.wpm ≤ MAX_WPM ∧ s.wpm % 50 = 0

end SpeedReader

open SpeedReader

/-! ## Claims about the ORP utilities -/

/-- C4: for every word `w` (including the empty one), the three parts returned
by `splitWordAtORP` — prefix, pivot character, suffix — concatenate back to
exactly `w`. -/
theorem splitWordAtORP_roundTrip (w : List Char) :
    (splitWordAtORP w).1 ++ (splitWordAtORP w).2.1 ++ (splitWordAtORP w).2.2 = w := by
  unfold splitWordAtORP
  simp only
  rw [List.append_assoc]
  have h1 : (w.drop (getORPIndex w)).take 1 ++ w.drop (getORPIndex w + 1)
      = w.drop (getORPIndex w) := by
    rw [← List.drop_drop]
    exact List.take_append_drop 1 (w.drop (getORPIndex w))
  rw [h1, List.take_append_drop]

/-- C5: `getORPIndex` is the exact step function of word length
(≤1 → 0, ≤5 → 1, ≤9 → 2, ≤13 → 3, otherwise 4), it is monotonically
non-decreasing in word length, and it is bounded above by 4. -/
theorem getORPIndex_step_monotone_bounded :
    (∀ w : List Char,
      getORPIndex w =
        (if w.length ≤ 1 then 0
         else if w.length ≤ 5 then 1
         else if w.length ≤ 9 then 2
         else if w.length ≤ 13 then 3
         else 4)) ∧
    (∀ v w : List Char, v.length ≤ w.length → getORPIndex v ≤ getORPIndex w) ∧
    (∀ w : List Char, getORPIndex w ≤ 4) := by
  refine ⟨fun w => rfl, fun v w h => ?_, fun w => ?_⟩
  · unfold getORPIndex
    simp only
    split_ifs <;> omega
  · unfold getORPIndex
    simp only
    split_ifs <;> omega

/-- Witness for C5: the monotonicity clause applied at the concrete words
"ab" and "abcdef" (lengths 2 ≤ 6, ORP indices 1 ≤ 2). -/
theorem getORPIndex_step_monotone_bounded_witness :
    getORPIndex [Char.ofNat 97, Char.ofNat 98] ≤
      getORPIndex [Char.ofNat 97, Char.ofNat 98, Char.ofNat 99,
        Char.ofNat 100, Char.ofNat 101, Char.ofNat 102] :=
  getORPIndex_step_monotone_bounded.2.1 _ _ (by decide)

/-- C10: for every non-empty word `w`, `getORPIndex w < w.length`, so the
pivot returned by `splitWordAtORP w` is a real one-character slice of `w`;
the empty-pivot fallback fires only on the empty word. -/
theorem getORPIndex_lt_length_of_ne_nil (w : List Char) (h : w ≠ []) :
    getORPIndex w < w.length ∧ ((splitWordAtORP w).2.1).length = 1 := by
  have hlen : 1 ≤ w.length := List.length_pos.mpr h
  have hlt : getORPIndex w < w.length := by
    unfold getORPIndex
    simp only
    split_ifs <;> omega
  refine ⟨hlt, ?_⟩
  unfold splitWordAtORP
  simp only
  rw [List.length_take, List.length_drop]
  omega

/-- Witness for C10: the theorem applied to the concrete one-letter word "a". -/
theorem getORPIndex_lt_length_of_ne_nil_witness :
    getORPIndex [Char.ofNat 97] < 1 ∧ ((splitWordAtORP [Char.ofNat 97]).2.1).length = 1 :=
  getORPIndex_lt_length_of_ne_nil [Char.ofNat 97] (by decide)

/-! ## Claims about the tokenizer -/

/-- C6: `tokenizeText` is exactly trim, collapse-whitespace-runs (newlines and
tabs included), split, drop empty fields; `"  hello   world  "` tokenizes to
`["hello", "world"]`, a string with tab/newline separators splits on them, and
the empty or all-whitespace string yields the empty sequence. -/
theorem tokenizeText_spec :
    (∀ text : List Char, text ≠ [] →
      tokenizeText text =
        (splitOnSpace (collapseWs (trimChars text))).filter (fun w => w.length > 0)) ∧
    tokenizeText ("  hello   world  ".toList) = ["hello".toList, "world".toList] ∧
    tokenizeText ("a\t\nb c".toList) = ["a".toList, "b".toList, "c".toList] ∧
    tokenizeText [] = [] ∧
    (∀ l : List Char, (∀ c ∈ l, isJsWhitespace c = true) → tokenizeText l = []) := by
  refine ⟨fun text h => ?_, by decide, by decide, rfl, fun l h => ?_⟩
  · unfold tokenizeText
    rw [if_neg (by simpa using h)]
  · have hdrop : l.dropWhile isJsWhitespace = [] := by
      rw [List.dropWhile_eq_nil_iff]
      exact fun c hc => h c hc
    have htrim : trimChars l = [] := by
      unfold trimChars
      rw [hdrop]
      rfl
    unfold tokenizeText
    rw [htrim]
    split <;> rfl

/-- Witness for C6: the all-whitespace clause applied to the concrete string
`"   "`, and the pipeline clause applied to `"hello"`. -/
theorem tokenizeText_spec_witness :
    tokenizeText ("   ".toList) = [] ∧
    tokenizeText ("hello".toList) =
      (splitOnSpace (collapseWs (trimChars ("hello".toList)))).filter
        (fun w => w.length > 0) :=
  ⟨tokenizeText_spec.2.2.2.2 _ (by decide),
   tokenizeText_spec.1 _ (by decide)⟩

/-! ## Claim about the remaining-time computation -/

/-- C9: the estimated remaining seconds equal `wordsRemaining / wpm * 60`;
at `wordsRemaining = 100`, `wpm = 300` this is exactly 20 seconds
(the IEEE double computation `100/300*60` also yields exactly `20.0`),
and `formatTime` renders it as `"0:20"`. -/
theorem calculateRemainingTime_100_300 :
    calculateRemainingTime 100 300 = (100 : ℚ) / 300 * 60 ∧
    calculateRemainingTime 100 300 = 20 ∧
    formatTime (calculateRemainingTime 100 300) = "0:20" := by
  refine ⟨by norm_num [calculateRemainingTime], by norm_num [calculateRemainingTime], ?_⟩
  have h : calculateRemainingTime 100 300 = 20 := by norm_num [calculateRemainingTime]
  rw [h]
  unfold formatTime
  norm_num
  rfl

/-! ## Helper lemmas for the state-machine invariants -/

/-- Every branch of `loadFromClipboard` either leaves the state untouched
(failure) or produces a paused state at index 0 with a non-empty word list
and the pace unchanged (success). -/
theorem loadFromClipboard_cases (text : List Char) (s : State) :
    (loadFromClipboard text s).1 = s ∨
    ((loadFromClipboard text s).1.words = tokenizeText text ∧
     (loadFromClipboard text s).1.words ≠ [] ∧
     (loadFromClipboard text s).1.currentIndex = 0 ∧
     (loadFromClipboard text s).1.isPlaying = false ∧
     (loadFromClipboard text s).1.wpm = s.wpm) := by
  unfold loadFromClipboard
  split
  · exact Or.inl rfl
  · dsimp only
    split
    · exact Or.inl rfl
    · rename_i hlen
      refine Or.inr ⟨rfl, ?_, rfl, rfl, rfl⟩
      simpa [← List.length_eq_zero] using hlen

/-- `togglePlay` never changes the word list or the pace. -/
theorem togglePlay_words_wpm (s : State) :
    (togglePlay s).words = s.words ∧ (togglePlay s).wpm = s.wpm := by
  unfold togglePlay
  split <;> exact ⟨rfl, rfl⟩

/-- `nextWord` never changes the word list or the pace. -/
theorem nextWord_words_wpm (s : State) :
    (nextWord s).words = s.words ∧ (nextWord s).wpm = s.wpm := by
  unfold nextWord
  split <;> exact ⟨rfl, rfl⟩

/-- `runningInv` is preserved by every step, provided `togglePlay` is only
taken from a state with a non-empty word list. -/
theorem runningInv_step (op : Op) (s : State)
    (hop : op = Op.togglePlay → s.words ≠ []) (h : runningInv s) :
    runningInv (step op s) := by
  cases op with
  | load text =>
      rcases loadFromClipboard_cases text s with hs | hs
      · rw [step, hs]; exact h
      · intro hw; exact hs.2.2.2.1
  | togglePlay =>
      intro hw
      rw [step] at hw ⊢
      exact absurd ((togglePlay_words_wpm s).1 ▸ hw) (hop rfl)
  | advance =>
      intro hw
      rw [step] at hw ⊢
      rw [(nextWord_words_wpm s).1] at hw
      unfold nextWord
      split
      · rfl
      · exact h hw
  | rewind => exact h
  | forward => exact h
  | speedUp => exact h
  | slowDown => exact h

/-- `runningInv` holds after any guarded run from a state satisfying it. -/
theorem runningInv_run (ops : List Op) (s : State) (h : runningInv s)
    (hg : togglesGuarded s ops = true) : runningInv (run s ops) := by
  induction ops generalizing s with
  | nil => exact h
  | cons op rest ih =>
      rw [togglesGuarded, Bool.and_eq_true] at hg
      have hop : op = Op.togglePlay → s.words ≠ [] := by
        intro he hw
        rw [he] at hg
        simp [hw] at hg
      exact ih (step op s) (runningInv_step op s hop h) hg.2

/-! ## Claim C1: running is false whenever the token sequence is empty -/

/-- C1 counterexample: from the empty initial state, a single `togglePlay`
(the action is exposed by the UI even before any text is loaded) yields a
state with `words = []` and `isPlaying = true`, because
`currentIndex >= words.length - 1` reads `0 >= -1` on the empty list; so the
claimed invariant fails on a reachable state and `togglePlay` does set
`running = true` while tokens are empty. -/
theorem togglePlay_on_empty_breaks_invariant :
    (run initState [Op.togglePlay]).words = [] ∧
    (run initState [Op.togglePlay]).isPlaying = true := by decide

/-- C1 (amended): for every sequence of transition operations starting from
the empty initial state in which `togglePlay` is applied only in states with
a non-empty token list (the spec's own validity precondition on
`togglePlay`), the invariant "`running` is false whenever `tokens` is empty"
holds in every reachable state. -/
theorem running_false_on_empty_guarded (ops : List Op)
    (hg : togglesGuarded initState ops = true) :
    (run initState ops).words = [] → (run initState ops).isPlaying = false :=
  runningInv_run ops initState (fun _ => rfl) hg

/-- Witness for amended C1: a concrete guarded sequence (a load of "a b",
an advance, a toggle, a forward and a rewind) ends in a state where the
invariant holds. -/
theorem running_false_on_empty_guarded_witness :
    togglesGuarded initState
      [Op.advance, Op.load ("a b".toList), Op.togglePlay, Op.forward, Op.rewind] = true ∧
    ((run initState
      [Op.advance, Op.load ("a b".toList), Op.togglePlay, Op.forward, Op.rewind]).words = [] →
     (run initState
      [Op.advance, Op.load ("a b".toList), Op.togglePlay, Op.forward, Op.rewind]).isPlaying
       = false) :=
  ⟨by decide, running_false_on_empty_guarded _ (by decide)⟩

/-! ## Claim C2: cursor bounds -/

/-- `cursorInv` is preserved by every transition, unconditionally. -/
theorem cursorInv_step (op : Op) (s : State) (h : cursorInv s) :
    cursorInv (step op s) := by
  obtain ⟨h1, h2, h3⟩ := h
  cases op with
  | load text =>
      show cursorInv (loadFromClipboard text s).1
      rcases loadFromClipboard_cases text s with hs | hs
      · rw [hs]; exact ⟨h1, h2, h3⟩
      · obtain ⟨-, hne, hidx, -, -⟩ := hs
        have hlen : 0 < (loadFromClipboard text s).1.words.length :=
          List.length_pos.mpr hne
        exact ⟨by omega, by omega, fun _ => by omega⟩
  | togglePlay =>
      show cursorInv (togglePlay s)
      unfold togglePlay
      split
      · exact ⟨by dsimp only; omega, by dsimp only; omega, fun _ => by dsimp only; omega⟩
      · exact ⟨h1, h2, h3⟩
  | advance =>
      show cursorInv (nextWord s)
      unfold nextWord
      split
      · exact ⟨h1, h2, h3⟩
      · rename_i hlt
        push_neg at hlt
        exact ⟨by dsimp only; omega, by dsimp only; omega, fun _ => by dsimp only; omega⟩
  | rewind =>
      show cursorInv (rewind s)
      unfold rewind SKIP_WORDS
      exact ⟨by dsimp only; omega, by dsimp only; omega, fun _ => by dsimp only; omega⟩
  | forward =>
      show cursorInv (forward s)
      unfold forward SKIP_WORDS
      refine ⟨by dsimp only; omega, by dsimp only; omega, fun hne => ?_⟩
      have h0 : 0 ≤ s.currentIndex := h3 (by
        intro hw
        exact hne (by dsimp only at hw ⊢; rw [hw]))
      have hlen : 0 < s.words.length := by
        rcases Nat.eq_zero_or_pos s.words.length with h0l | h0l
        · exact absurd (List.length_eq_zero.mp h0l)
            (by intro hw; exact hne (by dsimp only; rw [hw]))
        · exact h0l
      dsimp only
      omega
  | speedUp => exact ⟨h1, h2, h3⟩
  | slowDown => exact ⟨h1, h2, h3⟩

/-- `cursorInv` holds after any run from a state satisfying it. -/
theorem cursorInv_run (ops : List Op) (s : State) (h : cursorInv s) :
    cursorInv (run s ops) := by
  induction ops generalizing s with
  | nil => exact h
  | cons op rest ih => exact ih (step op s) (cursorInv_step op s h)

/-- C2 counterexample: from the empty initial state, a single seek-forward
(`forward`, exposed by the UI before any text is loaded) sets
`currentIndex = min(words.length - 1, 0 + 10) = min(-1, 10) = -1`, so the
claimed invariant `0 <= cursor < max(1, len(tokens))` fails on a reachable
state. -/
theorem forward_on_empty_breaks_cursor_bound :
    (run initState [Op.forward]).currentIndex = -1 ∧
    ¬ (0 ≤ (run initState [Op.forward]).currentIndex ∧
       (run initState [Op.forward]).currentIndex
         < max 1 ((run initState [Op.forward]).words.length : Int)) := by decide

/-- C2 (amended): in every state reachable from the empty initial state the
cursor satisfies `-1 ≤ cursor < max 1 (len tokens)` and is non-negative
whenever the token list is non-empty (so `cursor = -1` only arises from
seek-forward on an empty session); `rewind` (= `seek(-10)`) clamps at 0 —
from `cursor = 3` it yields exactly 0 and its result is never negative. -/
theorem cursor_bounds_amended :
    (∀ ops : List Op,
      -1 ≤ (run initState ops).currentIndex ∧
      (run initState ops).currentIndex < max 1 ((run initState ops).words.length : Int) ∧
      ((run initState ops).words ≠ [] → 0 ≤ (run initState ops).currentIndex)) ∧
    (∀ s : State, s.currentIndex = 3 → (rewind s).currentIndex = 0) ∧
    (∀ s : State, 0 ≤ (rewind s).currentIndex) := by
  refine ⟨fun ops => cursorInv_run ops initState ⟨by decide, by decide, fun _ => by decide⟩,
    fun s h => ?_, fun s => ?_⟩
  · unfold rewind SKIP_WORDS
    dsimp only
    omega
  · unfold rewind SKIP_WORDS
    dsimp only
    omega

/-- Witness for amended C2: the `seek(-10)`-at-cursor-3 clause applied to the
concrete state with one loaded word, cursor 3, paused, 350 wpm. -/
theorem cursor_bounds_amended_witness :
    (rewind ⟨[[Char.ofNat 97]], 3, false, 350⟩).currentIndex = 0 :=
  cursor_bounds_amended.2.1 ⟨[[Char.ofNat 97]], 3, false, 350⟩ rfl

/-! ## Claim C3: the load / togglePlay / advance trace on "a b c" -/

/-- C3: loading the text `"a b c"` yields the paused state at cursor 0 on
tokens `["a","b","c"]`; `togglePlay` then two `advance`s reach cursor 2 with
playback running; a third `advance` leaves the cursor at 2 and stops playback
(end of text is terminal, not an error); in general `nextWord` at the last
index only clears `isPlaying`, and otherwise increments the cursor by
exactly 1. -/
theorem playback_trace_abc :
    (loadFromClipboard ("a b c".toList) initState).1 =
      ⟨["a".toList, "b".toList, "c".toList], 0, false, 350⟩ ∧
    run (loadFromClipboard ("a b c".toList) initState).1
        [Op.togglePlay, Op.advance, Op.advance] =
      ⟨["a".toList, "b".toList, "c".toList], 2, true, 350⟩ ∧
    run (loadFromClipboard ("a b c".toList) initState).1
        [Op.togglePlay, Op.advance, Op.advance, Op.advance] =
      ⟨["a".toList, "b".toList, "c".toList], 2, false, 350⟩ ∧
    (∀ s : State, s.currentIndex ≥ (s.words.length : Int) - 1 →
      nextWord s = { s with isPlaying := false }) ∧
    (∀ s : State, s.currentIndex < (s.words.length : Int) - 1 →
      nextWord s = { s with currentIndex := s.currentIndex + 1 }) := by
  refine ⟨by decide, by decide, by decide, fun s h => ?_, fun s h => ?_⟩
  · unfold nextWord
    rw [if_pos h]
  · unfold nextWord
    rw [if_neg (by omega)]

/-- Witness for C3: both general `nextWord` clauses applied to concrete
states — at the last index of a one-word list, and strictly before the last
index of a three-word list. -/
theorem playback_trace_abc_witness :
    nextWord ⟨[[Char.ofNat 97]], 0, true, 350⟩ =
      ⟨[[Char.ofNat 97]], 0, false, 350⟩ ∧
    nextWord ⟨[[Char.ofNat 97], [Char.ofNat 98], [Char.ofNat 99]], 0, true, 350⟩ =
      ⟨[[Char.ofNat 97], [Char.ofNat 98], [Char.ofNat 99]], 1, true, 350⟩ :=
  ⟨playback_trace_abc.2.2.2.1 ⟨[[Char.ofNat 97]], 0, true, 350⟩ (by decide),
   playback_trace_abc.2.2.2.2 ⟨[[Char.ofNat 97], [Char.ofNat 98], [Char.ofNat 99]], 0, true, 350⟩
     (by decide)⟩

/-! ## Claim C7: loading empty or whitespace-only text -/

/-- C7: whenever the acquired text trims to nothing or tokenizes to zero
tokens, `loadFromClipboard` reports a failure outcome (one of the two
"nothing to read" toasts, never the success toast), leaves the session state
entirely unchanged, and in particular never enters `Playing`. -/
theorem load_empty_reports_failure (text : List Char) (s : State)
    (h : trimChars text = [] ∨ tokenizeText text = []) :
    (loadFromClipboard text s).1 = s ∧
    (loadFromClipboard text s).2 ≠ LoadOutcome.success ∧
    ((loadFromClipboard text s).2 = LoadOutcome.clipboardEmpty ∨
     (loadFromClipboard text s).2 = LoadOutcome.noWords) ∧
    (s.isPlaying = false → (loadFromClipboard text s).1.isPlaying = false) := by
  unfold loadFromClipboard
  split
  · exact ⟨rfl, by simp, Or.inl rfl, fun hp => hp⟩
  · rename_i hcond
    push_neg at hcond
    have htok : tokenizeText text = [] := by
      rcases h with h | h
      · exact absurd (by rw [h]; rfl) hcond.2
      · exact h
    dsimp only
    rw [if_pos (by rw [htok]; rfl)]
    exact ⟨rfl, by simp, Or.inr rfl, fun hp => hp⟩

/-- Witness for C7: the theorem applied to the whitespace-only clipboard text
`"   "` and the initial state. -/
theorem load_empty_reports_failure_witness :
    (loadFromClipboard ("   ".toList) initState).1 = initState ∧
    (loadFromClipboard ("   ".toList) initState).2 ≠ LoadOutcome.success ∧
    ((loadFromClipboard ("   ".toList) initState).2 = LoadOutcome.clipboardEmpty ∨
     (loadFromClipboard ("   ".toList) initState).2 = LoadOutcome.noWords) ∧
    (initState.isPlaying = false →
      (loadFromClipboard ("   ".toList) initState).1.isPlaying = false) :=
  load_empty_reports_failure ("   ".toList) initState (Or.inl (by decide))

/-! ## Claim C8: pace clamping -/

/-- No branch of `loadFromClipboard` changes the pace. -/
theorem loadFromClipboard_wpm (text : List Char) (s : State) :
    ((loadFromClipboard text s).1).wpm = s.wpm := by
  rcases loadFromClipboard_cases text s with hs | hs
  · rw [hs]
  · exact hs.2.2.2.2

/-- `wpmInv` is preserved by every transition. -/
theorem wpmInv_step (op : Op) (s : State) (h : wpmInv s) : wpmInv (step op s) := by
  obtain ⟨h1, h2, h3⟩ := h
  cases op with
  | load text =>
      have hw := loadFromClipboard_wpm text s
      exact ⟨by rw [step, hw]; exact h1, by rw [step, hw]; exact h2, by rw [step, hw]; exact h3⟩
  | togglePlay =>
      have hw := (togglePlay_words_wpm s).2
      exact ⟨by rw [step, hw]; exact h1, by rw [step, hw]; exact h2, by rw [step, hw]; exact h3⟩
  | advance =>
      have hw := (nextWord_words_wpm s).2
      exact ⟨by rw [step, hw]; exact h1, by rw [step, hw]; exact h2, by rw [step, hw]; exact h3⟩
  | rewind => exact ⟨h1, h2, h3⟩
  | forward => exact ⟨h1, h2, h3⟩
  | speedUp =>
      show wpmInv (speedUp s)
      simp only [MIN_WPM, MAX_WPM] at h1 h2
      simp only [wpmInv, speedUp, MIN_WPM, MAX_WPM, WPM_STEP]
      refine ⟨?_, ?_, ?_⟩ <;> omega
  | slowDown =>
      show wpmInv (slowDown s)
      simp only [MIN_WPM, MAX_WPM] at h1 h2
      simp only [wpmInv, slowDown, MIN_WPM, MAX_WPM, WPM_STEP]
      refine ⟨?_, ?_, ?_⟩ <;> omega

/-- `wpmInv` holds after any run from a state satisfying it. -/
theorem wpmInv_run (ops : List Op) (s : State) (h : wpmInv s) : wpmInv (run s ops) := by
  induction ops generalizing s with
  | nil => exact h
  | cons op rest ih => exact ih (step op s) (wpmInv_step op s h)

/-- C8: the spec-side clamp sends 2000 to 1000 and 0 to 50; in every state
reachable from the initial state the pace lies in `[50, 1000]` and is a
multiple of 50; and on such states the code's pace-change operations
(`speedUp`/`slowDown`, the ±50 steps) agree with the spec's clamp applied to
the requested rate `wpm ± 50`. -/
theorem pace_clamped :
    setPaceSpec 2000 = 1000 ∧
    setPaceSpec 0 = 50 ∧
    (∀ ops : List Op,
      MIN_WPM ≤ (run initState ops).wpm ∧ (run initState ops).wpm ≤ MAX_WPM ∧
      (run initState ops).wpm % 50 = 0) ∧
    (∀ s : State, MIN_WPM ≤ s.wpm → s.wpm ≤ MAX_WPM →
      (speedUp s).wpm = setPaceSpec (s.wpm + WPM_STEP) ∧
      (slowDown s).wpm = setPaceSpec (s.wpm - WPM_STEP)) := by
  refine ⟨by decide, by decide,
    fun ops => wpmInv_run ops initState ⟨by decide, by decide, by decide⟩,
    fun s hlo hhi => ?_⟩
  simp only [MIN_WPM, MAX_WPM] at hlo hhi
  simp only [speedUp, slowDown, setPaceSpec, MIN_WPM, MAX_WPM, WPM_STEP]
  exact ⟨by omega, by omega⟩

/-- Witness for C8: the agreement clause applied at the initial state
(350 wpm): speeding up gives 400, slowing down gives 300, both equal to the
spec clamp of the requested rate. -/
theorem pace_clamped_witness :
    (speedUp initState).wpm = setPaceSpec (initState.wpm + WPM_STEP) ∧
    (slowDown initState).wpm = setPaceSpec (initState.wpm - WPM_STEP) :=
  pace_clamped.2.2.2 initState (by decide) (by decide)
